import Mathlib

/-!
# Verification of the multi-process workflow engine (benchproc)

A shallow embedding of the repository `benchmark-multiproc-backend`:
  * `src/benchproc/task.py`   — the sequential command runner (`run`),
  * `src/benchproc/engine.py` — the `MultiProcessWorkflowEngine` facade,
    its registry operations (`cancel_run`, `get_state`, `run_async`,
    `execute`), the completion handler `callback_function`, and the
    template-command resolver `get_commands` (which uses Python's
    `string.Template.substitute`).

External collaborators (the `benchtmpl` library: argument validation,
file staging, `replace_args`, the workflow-state objects) are not part of
this repository; they are modelled abstractly through an environment
record, as the spec treats them as black boxes reached through a fixed
interface.

Python dictionaries are modelled as association lists where lookup finds
the first binding; `dictSet`/`dictDel` keep at most one binding per key,
matching dictionary semantics at the level of lookups.
-/

namespace Benchproc

/-- Workflow status constants of `benchtmpl.workflow.state` as used by the
runner (`wf.STATE_SUCCESS`, `wf.STATE_ERROR`). -/
inductive WfStatus where
  | success
  | error
  deriving DecidableEq, Repr

/-- A file resource (`benchtmpl.workflow.resource.base.FileResource`):
an identifier (the declared output name) plus a filepath. -/
structure FileResource where
  identifier : String
  filepath : String
  deriving DecidableEq, Repr

/-- A workflow run state (`benchtmpl.workflow.state`): `Running` with its
two timestamps, terminal `Success` with a resource mapping, terminal
`Error` with a message list. -/
inductive RunState where
  | running (created_at started_at : Nat)
  | success (resources : List (String × FileResource))
  | error (messages : List String)
  deriving DecidableEq, Repr

/-- Embeds `StateRunning.success(resources)` of `benchtmpl`: a `Running` state
moves to the terminal `Success` state carrying the resource mapping. -/
def RunState.toSuccess (_s : RunState) (resources : List (String × FileResource)) :
    RunState :=
  RunState.success resources

/-- Embeds `StateRunning.error(messages)` of `benchtmpl`: a `Running` state moves
to the terminal `Error` state carrying the messages. -/
def RunState.toError (_s : RunState) (messages : List String) : RunState :=
  RunState.error messages

/-- Whether a state is the active `Running` state. -/
def RunState.isRunning : RunState → Bool
  | RunState.running _ _ => true
  | _ => false

/-- The execution handle stored next to a state in the engine's task
dictionary: `None` for synchronous runs and completed runs, a
`multiprocessing.Pool` for dispatched asynchronous runs.  The pool's own
behaviour (close/terminate) is an OS effect outside the registry and is
not modelled. -/
inductive PoolHandle where
  | pool
  deriving DecidableEq, Repr

/-- An entry of `self.tasks`: a pair of current state and optional pool. -/
abbrev RunEntry := RunState × Option PoolHandle

/-- The engine's task dictionary `self.tasks`, modelled as an association
list with at most one binding per key. -/
abbrev Registry := List (String × RunEntry)

/-- Dictionary lookup: the value bound to `k`, if any (`tasks[k]` /
`k in tasks`). -/
def dictLookup (m : List (String × α)) (k : String) : Option α :=
  match m with
  | [] => none
  | (k2, v) :: rest => if k2 = k then some v else dictLookup rest k

/-- Dictionary deletion `del m[k]` (also the absent-key no-op used where
the code guards with `k in m` first): removes the binding of `k`. -/
def dictDel (m : List (String × α)) (k : String) : List (String × α) :=
  m.filter (fun p => p.1 ≠ k)

/-- Dictionary assignment `m[k] = v`: binds `k` to `v`, replacing any
previous binding. -/
def dictSet (m : List (String × α)) (k : String) (v : α) : List (String × α) :=
  (k, v) :: dictDel m k

/-- Decidable equality of `Except` values, for evaluating results of the
fallible operations on concrete inputs. -/
instance exceptDecEq {ε α : Type} [DecidableEq ε] [DecidableEq α] :
    DecidableEq (Except ε α) := fun x y =>
  match x, y with
  | Except.ok a, Except.ok b =>
    if h : a = b then isTrue (by rw [h])
    else isFalse (fun hc => h (by injection hc))
  | Except.error a, Except.error b =>
    if h : a = b then isTrue (by rw [h])
    else isFalse (fun hc => h (by injection hc))
  | Except.ok _, Except.error _ => isFalse (fun hc => by injection hc)
  | Except.error _, Except.ok _ => isFalse (fun hc => by injection hc)

/-! ## The command runner (`src/benchproc/task.py`, function `run`)

Executing one shell command through `subprocess.run` either yields a
completed process (return code plus captured stderr) or raises at launch
time.  The operating system's behaviour is modelled by an oracle mapping
each command string to its outcome. -/

/-- Outcome of `subprocess.run(cmd, ...)` for one command. -/
inductive CmdResult where
  | ok (returncode : Int) (stderr : String)
  | exn (msg trace : String)
  deriving DecidableEq, Repr

/-- Embeds `benchproc.task.run`: sequential execution of the command list.
Stops at the first command with a non-zero return code (Error with the
captured stderr) or at the first launch fault (Error with the message and
traceback); Success with no messages if all commands complete with
return code 0. -/
def task_run (exec : String → CmdResult) (identifier : String) :
    List String → String × WfStatus × List String
  | [] => (identifier, WfStatus.success, [])
  | cmd :: rest =>
    match exec cmd with
    | CmdResult.ok rc stderr =>
      if rc ≠ 0 then (identifier, WfStatus.error, [stderr])
      else task_run exec identifier rest
    | CmdResult.exn msg trace => (identifier, WfStatus.error, [msg, trace])

/-- The commands actually launched by `task_run`, in order: the loop of
`benchproc.task.run` invokes `subprocess.run` once per iteration and
returns out of the loop on the first failure. -/
def task_run_executed (exec : String → CmdResult) : List String → List String
  | [] => []
  | cmd :: rest =>
    match exec cmd with
    | CmdResult.ok rc _ =>
      if rc ≠ 0 then [cmd] else cmd :: task_run_executed exec rest
    | CmdResult.exn _ _ => [cmd]

/-! ## Template substitution (`string.Template.substitute`)

`get_commands` expands each command string with Python's
`string.Template(command).substitute(workflow_parameters)`.  The default
`Template` pattern recognises `$$` (an escaped dollar), `$name` and
`${name}` where `name` matches `[_a-zA-Z][_a-zA-Z0-9]*` (ASCII), and
raises `ValueError` on any other use of `$`; `substitute` raises
`KeyError(name)` when `name` is not in the mapping. -/

/-- First character of a Python `Template` identifier: `[_a-zA-Z]`. -/
def isIdStart (c : Char) : Bool :=
  c = '_' || ('a' ≤ c && c ≤ 'z') || ('A' ≤ c && c ≤ 'Z')

/-- Continuation character of a Python `Template` identifier:
`[_a-zA-Z0-9]`. -/
def isIdCont (c : Char) : Bool :=
  isIdStart c || ('0' ≤ c && c ≤ '9')

/-- Maximal munch of identifier continuation characters, returning the
taken characters and the remainder. -/
def spanId : List Char → List Char × List Char
  | [] => ([], [])
  | c :: rest =>
    if isIdCont c then
      let p := spanId rest
      (c :: p.1, p.2)
    else ([], c :: rest)

/-- Failure modes of `Template.substitute`: a malformed placeholder
(`ValueError`) or a placeholder name absent from the mapping
(`KeyError(name)`). -/
inductive SubstError where
  | invalidPlaceholder
  | missingKey (name : String)
  deriving DecidableEq, Repr

/-- The scan performed by `Template.substitute` over the character list:
literal characters are copied; `$$` emits `$`; `$name` and `${name}` are
replaced by the mapping's value; any other `$` use fails.  Recursion is
driven by a fuel counter so that the function is structurally recursive;
every recursive call consumes at least one character and one unit of
fuel, so starting with `fuel = length` (as `substitute` does) the
fuel-exhaustion branch is never reached. -/
def substituteAux (m : String → Option String) : Nat → List Char → Except SubstError (List Char)
  | _, [] => Except.ok []
  | 0, _ :: _ => Except.error SubstError.invalidPlaceholder
  | Nat.succ fuel, c :: rest =>
    if c = '$' then
      match rest with
      | [] => Except.error SubstError.invalidPlaceholder
      | d :: rest2 =>
        if d = '$' then
          match substituteAux m fuel rest2 with
          | Except.ok t => Except.ok ('$' :: t)
          | Except.error e => Except.error e
        else if d = '{' then
          match rest2 with
          | [] => Except.error SubstError.invalidPlaceholder
          | e :: rest3 =>
            if isIdStart e then
              match spanId rest3 with
              | (taken, rest4) =>
                match rest4 with
                | '}' :: rest5 =>
                  match m (String.mk (e :: taken)) with
                  | some v =>
                    match substituteAux m fuel rest5 with
                    | Except.ok t => Except.ok (v.data ++ t)
                    | Except.error er => Except.error er
                  | none =>
                    Except.error (SubstError.missingKey (String.mk (e :: taken)))
                | _ => Except.error SubstError.invalidPlaceholder
            else Except.error SubstError.invalidPlaceholder
        else if isIdStart d then
          match spanId rest2 with
          | (taken, rest3) =>
            match m (String.mk (d :: taken)) with
            | some v =>
              match substituteAux m fuel rest3 with
              | Except.ok t => Except.ok (v.data ++ t)
              | Except.error er => Except.error er
            | none => Except.error (SubstError.missingKey (String.mk (d :: taken)))
        else Except.error SubstError.invalidPlaceholder
    else
      match substituteAux m fuel rest with
      | Except.ok t => Except.ok (c :: t)
      | Except.error e => Except.error e

/-- Embeds `string.Template(s).substitute(m)`. -/
def substitute (m : String → Option String) (s : String) : Except SubstError String :=
  match substituteAux m s.data.length s.data with
  | Except.ok t => Except.ok (String.mk t)
  | Except.error e => Except.error e

/-! ## The engine (`src/benchproc/engine.py`) -/

/-- The exceptions visible at the engine's interface: `benchtmpl.error`
classes raised by the collaborators and by the engine, plus Python's
built-in `IOError` (from staging) and `ValueError` (from a malformed
template placeholder). -/
inductive EngineError where
  | missingArgument (name : String)
  | unknownRun (run_id : String)
  | invalidTemplate (msg : String)
  | ioError (msg : String)
  | valueError (msg : String)
  | runActive (run_id : String)
  deriving DecidableEq, Repr

/-- Embeds `str(KeyError(name))` — the representation Python gives a `KeyError`,
which `get_commands` passes to `InvalidTemplateError`. -/
def keyErrorStr (name : String) : String :=
  "\x27" ++ name ++ "\x27"

/-- The inner loop of `get_commands` over the command strings of the
steps: substitute each command, turning a `KeyError` into
`InvalidTemplateError(str(ex))`; a malformed placeholder (`ValueError`)
is not caught and propagates. -/
def gcCommands (m : String → Option String) : List String → Except EngineError (List String)
  | [] => Except.ok []
  | c :: cs =>
    match substitute m c with
    | Except.ok s =>
      match gcCommands m cs with
      | Except.ok rest => Except.ok (s :: rest)
      | Except.error e => Except.error e
    | Except.error (SubstError.missingKey name) =>
      Except.error (EngineError.invalidTemplate (keyErrorStr name))
    | Except.error SubstError.invalidPlaceholder =>
      Except.error (EngineError.valueError c)

/-- Embeds `get_commands(template, arguments)`: appends the expanded command
strings of every workflow step, in step order and within-step order.
`workflow_parameters` — the result of `tmpl.replace_args` on the
template's `inputs.parameters` section (external `benchtmpl` code) — is
taken as the resolved mapping `m`; the steps are taken as their lists of
command strings. -/
def get_commands (m : String → Option String) :
    List (List String) → Except EngineError (List String)
  | [] => Except.ok []
  | step :: rest =>
    match gcCommands m step with
    | Except.ok a =>
      match get_commands m rest with
      | Except.ok b => Except.ok (a ++ b)
      | Except.error e => Except.error e
    | Except.error e => Except.error e

/-- The substituted form of a single command, with the command itself as
a (never used) fallback in the failure cases: a device for stating what
`get_commands` returns when all substitutions succeed. -/
def substOr (m : String → Option String) (c : String) : String :=
  match substitute m c with
  | Except.ok s => s
  | Except.error _ => c

/-- Embeds `MultiProcessWorkflowEngine.cancel_run(run_id)`: if the run is still
in the task dictionary, close and terminate its pool (an OS effect with
no registry content) and delete the entry; otherwise do nothing. -/
def cancel_run (tasks : Registry) (run_id : String) : Registry :=
  match dictLookup tasks run_id with
  | some _ => dictDel tasks run_id
  | none => tasks

/-- Embeds `MultiProcessWorkflowEngine.get_state(run_id)`: the state stored in
the task dictionary; `KeyError` becomes `UnknownRunError(run_id)`. -/
def get_state (tasks : Registry) (run_id : String) : Except EngineError RunState :=
  match dictLookup tasks run_id with
  | some (state, _) => Except.ok state
  | none => Except.error (EngineError.unknownRun run_id)

/-- Embeds `os.path.join(a, b)` for a relative second component. -/
def pathJoin (a b : String) : String :=
  a ++ "/" ++ b

/-- The loop building the `resources` dictionary in `callback_function`:
for each declared output file (in order), if `run_dir/file_id` is a file
on disk, bind `file_id` to a `FileResource` with that identifier and
filepath; otherwise skip it.  `isfile` is the state of the filesystem at
callback time, `resources` the dictionary accumulated so far. -/
def buildResourcesFrom (isfile : String → Bool) (run_dir : String)
    (resources : List (String × FileResource)) :
    List String → List (String × FileResource)
  | [] => resources
  | file_id :: rest =>
    if isfile (pathJoin run_dir file_id) then
      buildResourcesFrom isfile run_dir
        (dictSet resources file_id
          { identifier := file_id, filepath := pathJoin run_dir file_id })
        rest
    else buildResourcesFrom isfile run_dir resources rest

/-- The `resources` dictionary built by `callback_function` on success,
starting from the empty dictionary `resources = dict()`. -/
def buildResources (isfile : String → Bool) (run_dir : String)
    (output_files : List String) : List (String × FileResource) :=
  buildResourcesFrom isfile run_dir [] output_files

/-- Embeds `callback_function(result, lock, tasks, run_dir, output_files)`:
under the lock, unpack the result triple; if the task id is still
registered, turn the raw result into a terminal state (collecting
existing declared output files into resources on success, wrapping the
messages on error), drop the pool and store the new entry; if the id is
gone, do nothing. -/
def callback_function (isfile : String → Bool)
    (result : String × WfStatus × List String) (tasks : Registry)
    (run_dir : String) (output_files : List String) : Registry :=
  match result with
  | (task_id, res, messages) =>
    match dictLookup tasks task_id with
    | some (state, _pool) =>
      let result_state :=
        if res = WfStatus.success then
          RunState.toSuccess state (buildResources isfile run_dir output_files)
        else RunState.toError state messages
      dictSet tasks task_id (result_state, none)
    | none => tasks

/-- Embeds `MultiProcessWorkflowEngine.run_async(identifier, commands, run_dir,
output_files, verbose)`: create a single-worker pool, register the run as
`Running` (with the pool handle) in the task dictionary, dispatch
`tasks.run` to the pool with `callback_function` as completion callback,
and return the `Running` state.  The dispatched execution and its
callback happen later in the worker's context; they are modelled by
applying `task_run` and `callback_function` to the resulting registry
separately.  `now` is the `datetime.now()` timestamp.  The registration
is an unguarded dictionary assignment. -/
def run_async (now : Nat) (tasks : Registry) (identifier : String)
    (_commands : List String) (_run_dir : String)
    (_output_files : List String) (_verbose : Bool) : Registry × RunState :=
  let state := RunState.running now now
  (dictSet tasks identifier (state, some PoolHandle.pool), state)

/-- Modelled from the spec: `remove_run` (`removeRun`) is exercised by the
repository's test suite (`tests/test_multiprocess_engine.py`) but the
method itself is absent from `src/benchproc/engine.py`.  Spec §4.1
`remove(id)`: deletes the entry; fails with `RunActiveError` if the
current state is `Running` (caller must cancel first); idempotent —
removing a non-existent id is not an error. -/
def remove_run (tasks : Registry) (run_id : String) : Except EngineError Registry :=
  match dictLookup tasks run_id with
  | some (state, _) =>
    if state.isRunning then Except.error (EngineError.runActive run_id)
    else Except.ok (dictDel tasks run_id)
  | none => Except.ok tasks

/-- The engine's mutable state: the set of run directories existing under
`base_dir` (as a list of paths) and the task dictionary. -/
structure EngineState where
  runDirs : List String
  tasks : Registry
  deriving DecidableEq, Repr

/-- The outcomes of the external collaborators and of the operating
system for one `execute` call, as the spec's black-box interfaces:
`validate` is `template.validate_arguments(arguments)`; `uploadFiles` is
`fileio.upload_files(...)` staging the inputs; `workflowParams` is the
mapping produced by `tmpl.replace_args` on `inputs.parameters`; `steps`
are the command-string lists of `workflow.specification.steps`;
`outputFiles` is `tmpl.replace_args` on `outputs.files`; `exec` is the
operating system's response to each shell command; `isfile` is the
on-disk state seen by the completion callback; `now` is
`datetime.now()`. -/
structure ExecEnv where
  validate : Except EngineError Unit
  uploadFiles : Except EngineError Unit
  workflowParams : String → Option String
  steps : List (List String)
  outputFiles : Except EngineError (List String)
  exec : String → CmdResult
  isfile : String → Bool
  now : Nat

/-- Embeds `MultiProcessWorkflowEngine.execute(template, arguments, run_async,
verbose)`: validate the arguments; create the run directory
`base_dir/identifier` (the identifier is the fresh unique id produced by
`util.get_unique_identifier()`); inside the `try` block stage the input
files, resolve the commands and the output files, then either register
and dispatch asynchronously or register, run inline and invoke the
completion callback; on any exception inside the `try` block remove the
run directory and re-raise.  Returns the identifier. -/
def execute (env : ExecEnv) (base_dir identifier : String)
    (runAsync _verbose : Bool) (st : EngineState) :
    EngineState × Except EngineError String :=
  match env.validate with
  | Except.error e => (st, Except.error e)
  | Except.ok _ =>
    let run_dir := pathJoin base_dir identifier
    let st1 : EngineState := { st with runDirs := st.runDirs ++ [run_dir] }
    let setup : Except EngineError (List String × List String) :=
      match env.uploadFiles with
      | Except.error e => Except.error e
      | Except.ok _ =>
        match get_commands env.workflowParams env.steps with
        | Except.error e => Except.error e
        | Except.ok commands =>
          match env.outputFiles with
          | Except.error e => Except.error e
          | Except.ok output_files => Except.ok (commands, output_files)
    match setup with
    | Except.error e =>
      ({ st1 with runDirs := st1.runDirs.filter (fun d => d ≠ run_dir) },
       Except.error e)
    | Except.ok (commands, output_files) =>
      if runAsync then
        let p := run_async env.now st1.tasks identifier commands run_dir
          output_files false
        ({ st1 with tasks := p.1 }, Except.ok identifier)
      else
        let state := RunState.running env.now env.now
        let st2 : EngineState :=
          { st1 with tasks := dictSet st1.tasks identifier (state, none) }
        let result := task_run env.exec identifier commands
        let st3 : EngineState :=
          { st2 with
            tasks := callback_function env.isfile result st2.tasks run_dir
              output_files }
        (st3, Except.ok identifier)

/-! ## Dictionary lemmas -/

theorem dictLookup_dictDel_self (m : List (String × α)) (k : String) :
    dictLookup (dictDel m k) k = none := by
  induction m with
  | nil => simp [dictDel, dictLookup]
  | cons p rest ih =>
    by_cases h : p.1 = k
    · simpa [dictDel, h] using ih
    · simpa [dictDel, dictLookup, h] using ih

theorem dictLookup_dictDel_ne (m : List (String × α)) (k k2 : String)
    (h : k2 ≠ k) : dictLookup (dictDel m k) k2 = dictLookup m k2 := by
  induction m with
  | nil => simp [dictDel, dictLookup]
  | cons p rest ih =>
    by_cases hp : p.1 = k
    · have h1 : dictDel (p :: rest) k = dictDel rest k := by
        simp [dictDel, hp]
      have hne : ¬ p.1 = k2 := by rw [hp]; exact fun hc => h hc.symm
      have h2 : dictLookup (p :: rest) k2 = dictLookup rest k2 := by
        cases p with
        | mk a b => simp only [dictLookup]; simp [hne]
      rw [h1, h2]; exact ih
    · have h1 : dictDel (p :: rest) k = p :: dictDel rest k := by
        simp [dictDel, hp]
      rw [h1]
      cases p with
      | mk a b =>
        by_cases hp2 : a = k2 <;> simp only [dictLookup] <;> simp [hp2, ih]

theorem dictLookup_dictSet_self (m : List (String × α)) (k : String) (v : α) :
    dictLookup (dictSet m k v) k = some v := by
  simp [dictSet, dictLookup]

theorem dictLookup_dictSet_ne (m : List (String × α)) (k k2 : String) (v : α)
    (h : k2 ≠ k) : dictLookup (dictSet m k v) k2 = dictLookup m k2 := by
  have hne : ¬ k = k2 := fun hc => h hc.symm
  simp only [dictSet, dictLookup, if_neg hne]
  exact dictLookup_dictDel_ne m k k2 h

/-! ## Claim theorems -/

/-- C6: when `callback_function` is invoked with a run identifier that is
no longer present in the registry, the registry mapping is returned
entirely unchanged and no error is raised. -/
theorem C6_callback_unknown_id_noop (isfile : String → Bool)
    (task_id : String) (res : WfStatus) (messages : List String)
    (tasks : Registry) (run_dir : String) (output_files : List String)
    (habs : dictLookup tasks task_id = none) :
    callback_function isfile (task_id, res, messages) tasks run_dir
      output_files = tasks := by
  simp [callback_function, habs]

theorem C6_callback_unknown_id_noop_witness :
    callback_function (fun _ => true)
      ("gone", WfStatus.success, []) [("other", (RunState.running 0 0, none))]
      "base/gone" ["out.txt"] = [("other", (RunState.running 0 0, none))] :=
  C6_callback_unknown_id_noop (fun _ => true) "gone" WfStatus.success []
    [("other", (RunState.running 0 0, none))] "base/gone" ["out.txt"]
    (by decide)

/-- C7: `get_state` raises `UnknownRunError` exactly when the identifier
is absent from the task dictionary, and `cancel_run` on a `Running` run
makes a subsequent `get_state` for that identifier raise
`UnknownRunError`. -/
theorem C7_get_state_unknown_iff_absent (tasks : Registry) (run_id : String) :
    (get_state tasks run_id = Except.error (EngineError.unknownRun run_id) ↔
      dictLookup tasks run_id = none)
    ∧ (∀ c s p, dictLookup tasks run_id = some (RunState.running c s, p) →
        get_state (cancel_run tasks run_id) run_id =
          Except.error (EngineError.unknownRun run_id)) := by
  constructor
  · constructor
    · intro h
      cases hl : dictLookup tasks run_id with
      | none => rfl
      | some e =>
        cases e with
        | mk st p => simp [get_state, hl] at h
    · intro h
      simp [get_state, h]
  · intro c s p h
    have hdel : dictLookup (cancel_run tasks run_id) run_id = none := by
      simp only [cancel_run, h]
      exact dictLookup_dictDel_self tasks run_id
    simp [get_state, hdel]

theorem C7_get_state_unknown_iff_absent_witness :
    get_state (cancel_run [("r1", (RunState.running 2 2, some PoolHandle.pool))] "r1")
      "r1" = Except.error (EngineError.unknownRun "r1") :=
  (C7_get_state_unknown_iff_absent
      [("r1", (RunState.running 2 2, some PoolHandle.pool))] "r1").2
    2 2 (some PoolHandle.pool) (by decide)

/-- C10: `cancel_run` with an identifier not present in the task
dictionary returns with the registry unchanged (the function is total —
no `UnknownRunError` path exists), and cancellation is idempotent. -/
theorem C10_cancel_run_absent_noop (tasks : Registry) (run_id : String) :
    (dictLookup tasks run_id = none → cancel_run tasks run_id = tasks)
    ∧ cancel_run (cancel_run tasks run_id) run_id = cancel_run tasks run_id := by
  constructor
  · intro h
    simp [cancel_run, h]
  · cases hl : dictLookup tasks run_id with
    | none => simp [cancel_run, hl]
    | some e =>
      have h2 : cancel_run tasks run_id = dictDel tasks run_id := by
        simp [cancel_run, hl]
      rw [h2]
      simp [cancel_run, dictLookup_dictDel_self]

theorem C10_cancel_run_absent_noop_witness :
    cancel_run [("r1", (RunState.running 0 0, none))] "ghost" =
      [("r1", (RunState.running 0 0, none))] :=
  (C10_cancel_run_absent_noop [("r1", (RunState.running 0 0, none))] "ghost").1
    (by decide)

/-- C2: `remove_run` (modelled from the spec; the method is exercised by
the repository's tests but missing from `src/benchproc/engine.py`) raises
`RunActiveError` on a run whose state is still `Running`; on a run in a
terminal state it deletes the entry and is idempotent; on an absent
identifier (including an already-removed one) it raises nothing; and
after `cancel_run` it succeeds. -/
theorem C2_remove_run_contract (tasks : Registry) (run_id : String) :
    (∀ c s p, dictLookup tasks run_id = some (RunState.running c s, p) →
      remove_run tasks run_id = Except.error (EngineError.runActive run_id))
    ∧ (∀ st p, dictLookup tasks run_id = some (st, p) → st.isRunning = false →
      remove_run tasks run_id = Except.ok (dictDel tasks run_id)
      ∧ remove_run (dictDel tasks run_id) run_id =
          Except.ok (dictDel tasks run_id))
    ∧ (dictLookup tasks run_id = none → remove_run tasks run_id = Except.ok tasks)
    ∧ remove_run (cancel_run tasks run_id) run_id =
        Except.ok (cancel_run tasks run_id) := by
  refine ⟨?_, ?_, ?_, ?_⟩
  · intro c s p h
    simp [remove_run, h, RunState.isRunning]
  · intro st p h hterm
    constructor
    · simp [remove_run, h, hterm]
    · simp [remove_run, dictLookup_dictDel_self]
  · intro h
    simp [remove_run, h]
  · cases hl : dictLookup tasks run_id with
    | none =>
      have h2 : cancel_run tasks run_id = tasks := by simp [cancel_run, hl]
      rw [h2]
      simp [remove_run, hl]
    | some e =>
      have h2 : cancel_run tasks run_id = dictDel tasks run_id := by
        simp [cancel_run, hl]
      rw [h2]
      simp [remove_run, dictLookup_dictDel_self]

theorem C2_remove_run_contract_witness :
    remove_run [("r1", (RunState.running 0 0, some PoolHandle.pool))] "r1" =
        Except.error (EngineError.runActive "r1")
    ∧ remove_run [("r2", (RunState.error ["boom"], none))] "r2" = Except.ok []
    ∧ remove_run ([] : Registry) "r2" = Except.ok []
    ∧ remove_run
        (cancel_run [("r1", (RunState.running 0 0, some PoolHandle.pool))] "r1")
        "r1" = Except.ok [] := by
  refine ⟨?_, ?_, ?_, ?_⟩
  · exact (C2_remove_run_contract
      [("r1", (RunState.running 0 0, some PoolHandle.pool))] "r1").1
      0 0 (some PoolHandle.pool) (by decide)
  · exact ((C2_remove_run_contract
      [("r2", (RunState.error ["boom"], none))] "r2").2.1
      (RunState.error ["boom"]) none (by decide) (by decide)).1
  · exact (C2_remove_run_contract ([] : Registry) "r2").2.2.1 (by decide)
  · exact (C2_remove_run_contract
      [("r1", (RunState.running 0 0, some PoolHandle.pool))] "r1").2.2.2

/-- C4: if every command before index `i` completes with return code 0
and the command at `i` completes with a non-zero return code, the runner
returns `Error` with exactly that command's captured stderr as the only
message, and the commands launched are exactly the prefix up to and
including the failing one.  The failing command and the commands before
it are given as an explicit list split `pre ++ cmd :: post`. -/
theorem C4_runner_fail_fast (exec : String → CmdResult) (identifier : String)
    (pre : List String) (cmd : String) (post : List String)
    (rc : Int) (stderr : String)
    (hpre : ∀ c ∈ pre, ∃ s, exec c = CmdResult.ok 0 s)
    (hfail : exec cmd = CmdResult.ok rc stderr) (hrc : rc ≠ 0) :
    task_run exec identifier (pre ++ cmd :: post) =
      (identifier, WfStatus.error, [stderr])
    ∧ task_run_executed exec (pre ++ cmd :: post) = pre ++ [cmd] := by
  induction pre with
  | nil =>
    constructor
    · simp [task_run, hfail, hrc]
    · simp [task_run_executed, hfail, hrc]
  | cons c cs ih =>
    obtain ⟨s, hs⟩ := hpre c (by simp)
    have hih := ih (fun c2 hc2 => hpre c2 (by simp [hc2]))
    constructor
    · simp only [List.cons_append, task_run, hs]
      simpa using hih.1
    · simp only [List.cons_append, task_run_executed, hs]
      simp only [ne_eq, not_true_eq_false, if_neg]
      simp
      exact hih.2

theorem C4_runner_fail_fast_witness :
    task_run (fun c => if c = "good" then CmdResult.ok 0 "" else CmdResult.ok 2 "boom")
        "r1" ["good", "bad", "after"] = ("r1", WfStatus.error, ["boom"])
    ∧ task_run_executed
        (fun c => if c = "good" then CmdResult.ok 0 "" else CmdResult.ok 2 "boom")
        ["good", "bad", "after"] = ["good", "bad"] :=
  C4_runner_fail_fast
    (fun c => if c = "good" then CmdResult.ok 0 "" else CmdResult.ok 2 "boom")
    "r1" ["good"] "bad" ["after"] 2 "boom"
    (by intro c hc; simp at hc; subst hc; exact ⟨"", by decide⟩)
    (by decide) (by decide)

/-- A run all of whose commands complete with return code 0 produces the
raw `Success` result with no messages. -/
theorem task_run_success (exec : String → CmdResult) (identifier : String)
    (cmds : List String) (hall : ∀ c ∈ cmds, ∃ s, exec c = CmdResult.ok 0 s) :
    task_run exec identifier cmds = (identifier, WfStatus.success, []) := by
  induction cmds with
  | nil => rfl
  | cons c cs ih =>
    obtain ⟨s, hs⟩ := hall c (by simp)
    simp only [task_run, hs]
    simp only [ne_eq, not_true_eq_false, if_neg]
    simp
    exact ih (fun c2 hc2 => hall c2 (by simp [hc2]))

/-- Lookup characterization of the resource-building loop: a name is
bound exactly when it is a declared output file whose path exists on
disk, and then to the resource with that name and path; other lookups
fall through to the accumulator. -/
theorem buildResourcesFrom_lookup (isfile : String → Bool) (run_dir : String)
    (output_files : List String) (resources : List (String × FileResource))
    (f : String) :
    dictLookup (buildResourcesFrom isfile run_dir resources output_files) f =
      if f ∈ output_files ∧ isfile (pathJoin run_dir f) = true then
        some { identifier := f, filepath := pathJoin run_dir f }
      else dictLookup resources f := by
  induction output_files generalizing resources with
  | nil => simp [buildResourcesFrom]
  | cons o rest ih =>
    by_cases ho : isfile (pathJoin run_dir o) = true
    · simp only [buildResourcesFrom, if_pos ho]
      rw [ih]
      by_cases hfr : f ∈ rest ∧ isfile (pathJoin run_dir f) = true
      · rw [if_pos hfr, if_pos ⟨by simp [hfr.1], hfr.2⟩]
      · rw [if_neg hfr]
        by_cases hfo : f = o
        · subst hfo
          rw [dictLookup_dictSet_self, if_pos ⟨by simp, ho⟩]
        · rw [dictLookup_dictSet_ne _ _ _ _ hfo]
          have : ¬ (f ∈ o :: rest ∧ isfile (pathJoin run_dir f) = true) := by
            intro hc
            exact hfr ⟨by simpa [hfo] using hc.1, hc.2⟩
          rw [if_neg this]
    · simp only [buildResourcesFrom, if_neg ho]
      rw [ih]
      by_cases hfo : f = o
      · subst hfo
        have h1 : ¬ (f ∈ rest ∧ isfile (pathJoin run_dir f) = true) :=
          fun hc => ho hc.2
        have h2 : ¬ (f ∈ f :: rest ∧ isfile (pathJoin run_dir f) = true) :=
          fun hc => ho hc.2
        rw [if_neg h1, if_neg h2]
      · by_cases hfr : f ∈ rest ∧ isfile (pathJoin run_dir f) = true
        · rw [if_pos hfr, if_pos ⟨by simp [hfr.1], hfr.2⟩]
        · rw [if_neg hfr]
          have : ¬ (f ∈ o :: rest ∧ isfile (pathJoin run_dir f) = true) := by
            intro hc
            exact hfr ⟨by simpa [hfo] using hc.1, hc.2⟩
          rw [if_neg this]

/-- C5: a run all of whose commands exit with return code 0 ends, after
the completion callback, in the terminal `Success` state whose resource
mapping binds exactly those declared output files that exist on disk in
the run directory, each to a `FileResource` carrying that name and its
filepath, and nothing else; a declared output file absent from disk is
silently skipped. -/
theorem C5_success_resources_exact (exec : String → CmdResult)
    (isfile : String → Bool) (identifier : String) (cmds : List String)
    (tasks : Registry) (run_dir : String) (output_files : List String)
    (c s : Nat) (p : Option PoolHandle)
    (hall : ∀ cmd ∈ cmds, ∃ st, exec cmd = CmdResult.ok 0 st)
    (hreg : dictLookup tasks identifier = some (RunState.running c s, p)) :
    dictLookup
        (callback_function isfile (task_run exec identifier cmds) tasks
          run_dir output_files) identifier =
      some (RunState.success (buildResources isfile run_dir output_files),
        none)
    ∧ ∀ f, dictLookup (buildResources isfile run_dir output_files) f =
        if f ∈ output_files ∧ isfile (pathJoin run_dir f) = true then
          some { identifier := f, filepath := pathJoin run_dir f }
        else none := by
  constructor
  · rw [task_run_success exec identifier cmds hall]
    simp only [callback_function, hreg]
    simp [RunState.toSuccess, dictLookup_dictSet_self]
  · intro f
    have h := buildResourcesFrom_lookup isfile run_dir output_files [] f
    simpa [buildResources, dictLookup] using h

theorem C5_success_resources_exact_witness :
    dictLookup
        (callback_function (fun path => path = "base/r1/results/out.txt")
          (task_run (fun _ => CmdResult.ok 0 "") "r1" ["echo hi"])
          [("r1", (RunState.running 3 3, none))] "base/r1"
          ["results/out.txt", "results/gone.txt"]) "r1" =
      some (RunState.success
        (buildResources (fun path => path = "base/r1/results/out.txt")
          "base/r1" ["results/out.txt", "results/gone.txt"]), none)
    ∧ dictLookup
        (buildResources (fun path => path = "base/r1/results/out.txt")
          "base/r1" ["results/out.txt", "results/gone.txt"])
        "results/gone.txt" = none :=
  have h := C5_success_resources_exact (fun _ => CmdResult.ok 0 "")
    (fun path => path = "base/r1/results/out.txt") "r1" ["echo hi"]
    [("r1", (RunState.running 3 3, none))] "base/r1"
    ["results/out.txt", "results/gone.txt"] 3 3 none
    (fun cmd _ => ⟨"", rfl⟩) (by decide)
  ⟨h.1, by rw [h.2 "results/gone.txt"]; decide⟩

/-- When the inner command loop succeeds, every command substituted. -/
theorem gcCommands_ok_implies (m : String → Option String) (cs : List String)
    (l : List String) (h : gcCommands m cs = Except.ok l) :
    ∀ c ∈ cs, ∃ s, substitute m c = Except.ok s := by
  induction cs generalizing l with
  | nil => intro c hc; simp at hc
  | cons c2 rest ih =>
    intro c hc
    cases hsub : substitute m c2 with
    | ok s =>
      rcases List.mem_cons.mp hc with hceq | hcr
      · exact ⟨s, hceq ▸ hsub⟩
      · cases hrest : gcCommands m rest with
        | ok l2 => exact ih l2 hrest c hcr
        | error e => simp [gcCommands, hsub, hrest] at h
    | error e =>
      cases e with
      | invalidPlaceholder => simp [gcCommands, hsub] at h
      | missingKey n => simp [gcCommands, hsub] at h

/-- When no command is malformed, any failure of the inner command loop
is an `InvalidTemplateError`. -/
theorem gcCommands_error_shape (m : String → Option String) (cs : List String)
    (hwf : ∀ c ∈ cs, substitute m c ≠ Except.error SubstError.invalidPlaceholder)
    (e : EngineError) (h : gcCommands m cs = Except.error e) :
    ∃ n, e = EngineError.invalidTemplate n := by
  induction cs with
  | nil => simp [gcCommands] at h
  | cons c rest ih =>
    cases hsub : substitute m c with
    | ok s =>
      cases hrest : gcCommands m rest with
      | ok l2 => simp [gcCommands, hsub, hrest] at h
      | error e2 =>
        have he2 : e2 = e := by simp [gcCommands, hsub, hrest] at h; exact h
        rw [he2] at hrest
        exact ih (fun c2 hc2 => hwf c2 (by simp [hc2])) hrest
    | error e2 =>
      cases e2 with
      | invalidPlaceholder => exact absurd hsub (hwf c (by simp))
      | missingKey n =>
        refine ⟨keyErrorStr n, ?_⟩
        simp [gcCommands, hsub] at h
        exact h.symm

/-- When every command substitutes, the inner command loop returns the
substituted commands in order. -/
theorem gcCommands_all_ok (m : String → Option String) (cs : List String)
    (hall : ∀ c ∈ cs, ∃ s, substitute m c = Except.ok s) :
    gcCommands m cs = Except.ok (cs.map (substOr m)) := by
  induction cs with
  | nil => rfl
  | cons c rest ih =>
    obtain ⟨s, hs⟩ := hall c (by simp)
    have hrest := ih (fun c2 hc2 => hall c2 (by simp [hc2]))
    simp [gcCommands, hs, hrest, substOr]

/-- When `get_commands` succeeds, every command of every step
substituted. -/
theorem get_commands_ok_implies (m : String → Option String)
    (steps : List (List String)) (l : List String)
    (h : get_commands m steps = Except.ok l) :
    ∀ c ∈ steps.flatten, ∃ s, substitute m c = Except.ok s := by
  induction steps generalizing l with
  | nil => intro c hc; simp at hc
  | cons st rest ih =>
    intro c hc
    have hc2 : c ∈ st ∨ c ∈ rest.flatten :=
      List.mem_append.mp (by rw [← List.flatten_cons]; exact hc)
    cases hst : gcCommands m st with
    | ok a =>
      rcases hc2 with hcs | hcr
      · exact gcCommands_ok_implies m st a hst c hcs
      · cases hrest : get_commands m rest with
        | ok b => exact ih b hrest c hcr
        | error e => simp [get_commands, hst, hrest] at h
    | error e => simp [get_commands, hst] at h

/-- When no command is malformed, any failure of `get_commands` is an
`InvalidTemplateError`. -/
theorem get_commands_error_shape (m : String → Option String)
    (steps : List (List String))
    (hwf : ∀ c ∈ steps.flatten,
      substitute m c ≠ Except.error SubstError.invalidPlaceholder)
    (e : EngineError) (h : get_commands m steps = Except.error e) :
    ∃ n, e = EngineError.invalidTemplate n := by
  induction steps with
  | nil => simp [get_commands] at h
  | cons st rest ih =>
    cases hst : gcCommands m st with
    | ok a =>
      cases hrest : get_commands m rest with
      | ok b => simp [get_commands, hst, hrest] at h
      | error e2 =>
        have he2 : e2 = e := by simp [get_commands, hst, hrest] at h; exact h
        rw [he2] at hrest
        exact ih (fun c2 hc2 => hwf c2 (by simp [hc2])) hrest
    | error e2 =>
      have he2 : e2 = e := by simp [get_commands, hst] at h; exact h
      rw [he2] at hst
      exact gcCommands_error_shape m st
        (fun c2 hc2 => hwf c2 (by simp [hc2])) e hst

/-- C8: command resolution over the workflow steps.  Provided no command
string is malformed (no `ValueError` from the `Template` pattern): if
some command references a placeholder with no resolved value,
`get_commands` fails with an `InvalidTemplateError`; otherwise it returns
the command strings of all steps, in step and within-step order, each
with its placeholders substituted. -/
theorem C8_get_commands_resolution (m : String → Option String)
    (steps : List (List String))
    (hwf : ∀ c ∈ steps.flatten,
      substitute m c ≠ Except.error SubstError.invalidPlaceholder) :
    ((∃ c ∈ steps.flatten, ∃ n,
        substitute m c = Except.error (SubstError.missingKey n)) →
      ∃ n2, get_commands m steps =
        Except.error (EngineError.invalidTemplate n2))
    ∧ ((∀ c ∈ steps.flatten, ∃ s, substitute m c = Except.ok s) →
      get_commands m steps = Except.ok (steps.flatten.map (substOr m))) := by
  constructor
  · intro hmiss
    obtain ⟨c, hc, n, hn⟩ := hmiss
    cases hres : get_commands m steps with
    | ok l =>
      obtain ⟨s, hs⟩ := get_commands_ok_implies m steps l hres c hc
      rw [hs] at hn
      exact absurd hn (by simp)
    | error e =>
      obtain ⟨n2, hn2⟩ := get_commands_error_shape m steps hwf e hres
      exact ⟨n2, by rw [hn2]⟩
  · intro hall
    induction steps with
    | nil => rfl
    | cons st rest ih =>
      have hst := gcCommands_all_ok m st
        (fun c2 hc2 => hall c2 (by simp [hc2]))
      have hrest := ih (fun c2 hc2 => hwf c2 (by simp [hc2]))
        (fun c2 hc2 => hall c2 (by simp [hc2]))
      simp [get_commands, hst, hrest]

theorem C8_get_commands_resolution_witness :
    get_commands
        (fun n => if n = "sleeptime" then some "10"
          else if n = "names" then some "data/names.txt" else none)
        [["sleep $sleeptime", "echo ${names}"], ["echo done"]] =
      Except.ok ["sleep 10", "echo data/names.txt", "echo done"]
    ∧ ∃ n2, get_commands
        (fun n => if n = "sleeptime" then some "10" else none)
        [["sleep $sleeptime"], ["echo $oops"]] =
      Except.error (EngineError.invalidTemplate n2) := by
  constructor
  · have h := (C8_get_commands_resolution
      (fun n => if n = "sleeptime" then some "10"
        else if n = "names" then some "data/names.txt" else none)
      [["sleep $sleeptime", "echo ${names}"], ["echo done"]]
      (by decide)).2
      (by
        intro c hc
        simp only [List.flatten_cons, List.flatten_nil, List.append_nil,
          List.mem_append, List.mem_cons, List.not_mem_nil, or_false] at hc
        rcases hc with (rfl | rfl) | rfl
        · exact ⟨"sleep 10", by decide⟩
        · exact ⟨"echo data/names.txt", by decide⟩
        · exact ⟨"echo done", by decide⟩)
    rw [h]
    decide
  · exact (C8_get_commands_resolution
      (fun n => if n = "sleeptime" then some "10" else none)
      [["sleep $sleeptime"], ["echo $oops"]] (by decide)).1
      ⟨"echo $oops", by decide, "oops", by decide⟩

/-- C9 counterexample: registering a run under an identifier already
present in the task dictionary does not fail with `DuplicateRunError` —
`run_async` registers through an unguarded dictionary assignment, which
replaces the existing entry. -/
theorem C9_register_duplicate_counterexample :
    dictLookup
        (run_async 5 [("r1", (RunState.running 0 0, none))] "r1" ["cmd"]
          "base/r1" [] false).1 "r1" =
      some (RunState.running 5 5, some PoolHandle.pool)
    ∧ ((RunState.running 5 5, some PoolHandle.pool) : RunEntry) ≠
        (RunState.running 0 0, none) := by
  constructor
  · decide
  · decide

/-- C9 amended: registering a run entry under an identifier already
present in the registry raises nothing and silently overwrites the
existing entry with the fresh `Running` entry; bindings of all other
identifiers are unchanged. -/
theorem C9_register_overwrites (now : Nat) (tasks : Registry)
    (identifier : String) (commands : List String) (run_dir : String)
    (output_files : List String) (verbose : Bool) :
    dictLookup
        (run_async now tasks identifier commands run_dir output_files
          verbose).1 identifier =
      some (RunState.running now now, some PoolHandle.pool)
    ∧ (∀ k, k ≠ identifier →
        dictLookup
            (run_async now tasks identifier commands run_dir output_files
              verbose).1 k = dictLookup tasks k) := by
  constructor
  · exact dictLookup_dictSet_self tasks identifier _
  · intro k hk
    exact dictLookup_dictSet_ne tasks identifier k _ hk

theorem C9_register_overwrites_witness :
    dictLookup
        (run_async 5 [("r1", (RunState.running 0 0, none)),
            ("r2", (RunState.success [], none))] "r1" ["cmd"] "base/r1" []
          false).1 "r2" = some (RunState.success [], none) :=
  (C9_register_overwrites 5
      [("r1", (RunState.running 0 0, none)),
        ("r2", (RunState.success [], none))] "r1" ["cmd"] "base/r1" []
      false).2 "r2" (by decide)

/-- C3: whenever `execute` raises — which for the embedded setup phase
means a `MissingArgumentError` from validation, an `IOError` from
staging, an `InvalidTemplateError` (or `ValueError`) from command
resolution, or an error from output-file resolution — no task-dictionary
entry exists afterwards for the minted run identifier and no run
directory `base_dir/identifier` remains. -/
theorem C3_setup_failure_leaves_no_trace (env : ExecEnv)
    (base_dir identifier : String) (runAsync verbose : Bool)
    (st : EngineState) (e : EngineError)
    (hfresh : dictLookup st.tasks identifier = none)
    (hdir : pathJoin base_dir identifier ∉ st.runDirs)
    (herr : (execute env base_dir identifier runAsync verbose st).2 =
      Except.error e) :
    dictLookup (execute env base_dir identifier runAsync verbose st).1.tasks
        identifier = none
    ∧ pathJoin base_dir identifier ∉
        (execute env base_dir identifier runAsync verbose st).1.runDirs := by
  cases hv : env.validate with
  | error e2 =>
    simp only [execute, hv]
    exact ⟨hfresh, hdir⟩
  | ok u =>
    cases hu : env.uploadFiles with
    | error e2 =>
      simp only [execute, hv, hu]
      refine ⟨hfresh, ?_⟩
      intro hmem
      have hm := List.mem_filter.mp hmem
      simp at hm
    | ok u2 =>
      cases hg : get_commands env.workflowParams env.steps with
      | error e2 =>
        simp only [execute, hv, hu, hg]
        refine ⟨hfresh, ?_⟩
        intro hmem
        have hm := List.mem_filter.mp hmem
        simp at hm
      | ok commands =>
        cases ho : env.outputFiles with
        | error e2 =>
          simp only [execute, hv, hu, hg, ho]
          refine ⟨hfresh, ?_⟩
          intro hmem
          have hm := List.mem_filter.mp hmem
          simp at hm
        | ok output_files =>
          exfalso
          by_cases hra : runAsync
          · simp [execute, hv, hu, hg, ho, hra] at herr
          · simp [execute, hv, hu, hg, ho, hra] at herr

theorem C3_setup_failure_leaves_no_trace_witness :
    dictLookup
        (execute
          { validate := Except.ok (),
            uploadFiles := Except.error (EngineError.ioError
              "unknown file tests/files/.tmp/no/file/here"),
            workflowParams := fun _ => none, steps := [],
            outputFiles := Except.ok [], exec := fun _ => CmdResult.ok 0 "",
            isfile := fun _ => false, now := 1 }
          "base" "run1" false false
          { runDirs := ["base/other"], tasks := [] }).1.tasks "run1" = none
    ∧ pathJoin "base" "run1" ∉
        (execute
          { validate := Except.ok (),
            uploadFiles := Except.error (EngineError.ioError
              "unknown file tests/files/.tmp/no/file/here"),
            workflowParams := fun _ => none, steps := [],
            outputFiles := Except.ok [], exec := fun _ => CmdResult.ok 0 "",
            isfile := fun _ => false, now := 1 }
          "base" "run1" false false
          { runDirs := ["base/other"], tasks := [] }).1.runDirs :=
  C3_setup_failure_leaves_no_trace
    { validate := Except.ok (),
      uploadFiles := Except.error (EngineError.ioError
        "unknown file tests/files/.tmp/no/file/here"),
      workflowParams := fun _ => none, steps := [],
      outputFiles := Except.ok [], exec := fun _ => CmdResult.ok 0 "",
      isfile := fun _ => false, now := 1 }
    "base" "run1" false false { runDirs := ["base/other"], tasks := [] }
    (EngineError.ioError "unknown file tests/files/.tmp/no/file/here")
    (by decide) (by decide) (by decide)

/-- C1: at a concrete synchronous run whose only command exits with a
non-zero return code, `execute` returns normally — no exception — but its
return value is the bare run identifier: the terminal `Error` state is
recorded only in the task dictionary (the repository's own test suite
unpacks `execute`'s result as a pair of identifier and state, which this
return value is not). -/
theorem C1_sync_execute_returns_identifier_only :
    execute
        { validate := Except.ok (), uploadFiles := Except.ok (),
          workflowParams := fun _ => none, steps := [["failing_command"]],
          outputFiles := Except.ok [], exec := fun _ => CmdResult.ok 1 "boom",
          isfile := fun _ => false, now := 7 }
        "base" "run1" false false { runDirs := [], tasks := [] } =
      ({ runDirs := ["base/run1"],
         tasks := [("run1", (RunState.error ["boom"], none))] },
       Except.ok "run1") := by
  decide

end Benchproc
